import Mathlib

/-!
Verification of the draft-review state machine of the marks-content-agent
repository (`src/integrations/slack_bot.py`, with `src/services/voice_sampler.py`).

The embedding follows the Python source closely: Python dicts holding sessions
become association lists, the Python session dict becomes `Session`, and every
LLM / database / chat-transport collaborator is a parameter (`Oracles`).
Handlers return the new bot state together with the oracle calls they made,
the messages they posted and the feedback records they stored, so that claims
about "no LLM call", "no outbound message" and "what is sent to the oracle"
are statable.
-/

namespace MarksAgent

/-- Python `str.lower()` (character-wise; agrees with CPython on the ASCII
letters and symbols this bot compares). -/
def pyLower (s : String) : String := String.mk (s.data.map Char.toLower)

/-- Python `str.strip()`: drop whitespace from both ends. -/
def pyStrip (s : String) : String :=
  String.mk (((s.data.dropWhile Char.isWhitespace).reverse.dropWhile Char.isWhitespace).reverse)

/-- Whether `pat` occurs as a contiguous run inside `l`. -/
def subOccurs (pat : List Char) : List Char → Bool
  | [] => pat.isEmpty
  | c :: rest => pat.isPrefixOf (c :: rest) || subOccurs pat rest

/-- Python `pat in s` substring test (`"" in s` is true in Python). -/
def pyIn (pat s : String) : Bool := subOccurs pat.data s.data

/-- Python `s.startswith(pre)`. -/
def pyStartsWith (s pre : String) : Bool := pre.data.isPrefixOf s.data

/-- Helper of `pySplit`: accumulate the current word (reversed) while walking
the characters. -/
def wordsAux (acc : List Char) : List Char → List (List Char)
  | [] => if acc.isEmpty then [] else [acc.reverse]
  | c :: rest =>
    if c.isWhitespace then
      if acc.isEmpty then wordsAux [] rest else acc.reverse :: wordsAux [] rest
    else wordsAux (c :: acc) rest

/-- Python `str.split()` with no arguments: split on whitespace runs, dropping
empty pieces. -/
def pySplit (s : String) : List String := (wordsAux [] s.data).map String.mk

/-- Python truthiness of an optional string (`None` and `""` are falsy). -/
def truthy : Option String → Bool
  | none => false
  | some s => s ≠ ""

/-- Python `.lower().strip().lstrip("@")` normalisation used on voice hints. -/
def normHandleHint (s : String) : String :=
  String.mk ((pyStrip (pyLower s)).data.dropWhile (fun c => c == '@'))

/-- `session["status"]` values: `"iterating"`, `"approved"`, `"learnings_pending"`,
`"complete"`. -/
inductive Status
  | iterating
  | approved
  | learnings_pending
  | complete
deriving DecidableEq, Repr

/-- Position of a status in the forward order of the state machine. -/
def Status.rank : Status → Nat
  | .iterating => 0
  | .approved => 1
  | .learnings_pending => 2
  | .complete => 3

/-- One entry of `session["drafts"]`. `voice_reference` is `none` when the key
is absent from the Python dict. -/
structure Draft where
  version : Nat
  content : String
  revision_request : Option String
  voice_reference : Option String
  message_ts : Option String
deriving DecidableEq, Repr

/-- One value of `self.draft_sessions` (a Python dict per thread). Optional
keys that some creation sites omit are modelled as `Option`/default values. -/
structure Session where
  pillar : String
  topic : String
  user_id : Option String
  source_tweet_content : Option String
  source_tweet_handle : Option String
  drafts : List Draft
  status : Status
  pending_learnings : List String
  created_at : Int
  approved_at : Option Int
deriving DecidableEq, Repr

/-- A `{role, content}` message sent to the text-completion oracle. -/
structure Msg where
  role : String
  content : String
deriving DecidableEq, Repr

/-- The tweet record returned by `tweet_service.get_by_slack_message_ts`. -/
structure SuggestedTweet where
  id : String
  content : String
  account_handle : String
  relevance_type : Option String
  suggested_content : Option String
deriving DecidableEq, Repr

/-- A row of the `voice_samples` table. -/
structure VoiceSample where
  content : String
  likes : Nat
  is_active : Bool
deriving DecidableEq, Repr

/-- A voice-reference account together with its sample rows (the
`account_id` join of the database is modelled by nesting). -/
structure VoiceAccount where
  twitter_handle : String
  voice_pillars : List String
  samples : List VoiceSample
deriving DecidableEq, Repr

/-- An entry of the legacy `self.generated_posts` map. -/
structure GeneratedPost where
  pillar : String
  content : String
deriving DecidableEq, Repr

/-- Arguments of a `feedback_service.create(...)` call. -/
structure FeedbackRecord where
  pillar : String
  original_content : String
  final_content : Option String
  learnings : List String
  slack_thread_ts : String
deriving DecidableEq, Repr

/-- The mutable state of the bot that the draft-review machine touches. -/
structure BotState where
  draft_sessions : List (String × Session)
  generated_posts : List (String × GeneratedPost)
deriving DecidableEq, Repr

/-- External collaborators: every LLM call, database read and chat-transport
return value the handlers consume. A `none` result models a raised exception
(or, for `detectVoice`, also the "not a voice request" answer, matching
`_detect_voice_request` which returns `None` in both cases). -/
structure Oracles where
  classifyIntent : String → Session → Option String
  answerQuestion : String → Session → Option String
  detectVoice : String → Option String
  bestGuessHandle : String → Option String
  reviseWithVoice : String → String → List String → String → Option String
  reviseContent : String → List Msg → Option String
  extractLearnings : String → List Draft → Option (List String)
  tweetLookup : String → Option SuggestedTweet
  generateSinglePost : String → Option String → Option (String × String)
  voiceAccounts : List VoiceAccount
  sayTs : Option String

/-- Trace of one oracle invocation, recording exactly the data the source
passes to the collaborator. -/
inductive OracleCall
  | classify (text : String)
  | question (text : String)
  | detect (text : String)
  | bestGuess (hint : String)
  | reviseVoice (pillar current_content : String) (voice_samples : List String) (voice_handle : String)
  | revise (pillar : String) (messages : List Msg)
  | extract (pillar : String) (drafts : List Draft)
  | generate (pillar : String) (topic : Option String)
deriving DecidableEq, Repr

/-- Result of one handler run: new state plus the observable effects. -/
structure Out where
  state : BotState
  calls : List OracleCall
  posts : List String
  stored : List FeedbackRecord
deriving Repr

/-- A handler run that changes nothing and emits nothing. -/
def noop (st : BotState) : Out := { state := st, calls := [], posts := [], stored := [] }

/-- Result of a handler step acting on a single session. -/
structure StepOut where
  session : Session
  calls : List OracleCall
  posts : List String
  stored : List FeedbackRecord
deriving Repr

/-- Association-list lookup modelling Python dict `get` (first match wins). -/
def alookup {β : Type} : List (String × β) → String → Option β
  | [], _ => none
  | (a, b) :: tl, t => if t = a then some b else alookup tl t

/-- Python dict assignment `store[k] = v`: replaces in place when the key is
present, appends otherwise. -/
def setSession (store : List (String × Session)) (k : String) (v : Session) :
    List (String × Session) :=
  if (alookup store k).isSome then
    store.map (fun p => if p.1 = k then (k, v) else p)
  else
    store ++ [(k, v)]

/-- `self.draft_sessions.get(thread_ts)`. -/
def sessionAt (st : BotState) (t : String) : Option Session := alookup st.draft_sessions t

/-- Lift a per-session step to the bot state (the Python handlers mutate the
session dict they looked up, which lives in `draft_sessions`). -/
def liftStep (st : BotState) (thread_ts : String) (r : StepOut) : Out :=
  { state := { st with draft_sessions := setSession st.draft_sessions thread_ts r.session },
    calls := r.calls, posts := r.posts, stored := r.stored }

/-- `_cleanup_old_sessions`: drop sessions whose `created_at` is older than
24 hours (times in seconds). -/
def cleanupOldSessions (now : Int) (store : List (String × Session)) :
    List (String × Session) :=
  store.filter (fun p => !(p.2.created_at < now - 24 * 3600))

/-- The `exact_matches` list of `_is_approval_signal`. -/
def exact_matches : List String := ["good", "nice", "yes", "yep", "ok", "okay", "👍", "✅"]

/-- The `approval_phrases` list of `_is_approval_signal`. -/
def approval_phrases : List String :=
  ["this is good", "that\x27s good", "thats good", "looks good", "is good",
   "perfect", "done", "approved", "use this", "use it",
   "that works", "this works", "love it", "love this",
   "great", "finalize", "lock it", "ship it", "good to go",
   "lgtm", "let\x27s go", "lets go", "all good", "we\x27re good"]

/-- `_is_approval_signal`: cheap local approval check, no LLM call. -/
def isApprovalSignal (text : String) : Bool :=
  exact_matches.contains (pyStrip (pyLower text))
    || approval_phrases.any (fun phrase => pyIn phrase (pyStrip (pyLower text)))

/-- Normalisation of the classifier answer in `_classify_draft_reply_intent`:
strip, lowercase, default to `"revision"` when out of set or on exception. -/
def normalizeIntent (raw : Option String) : String :=
  match raw with
  | none => "revision"
  | some t =>
    if pyLower (pyStrip t) == "approval" || pyLower (pyStrip t) == "question"
        || pyLower (pyStrip t) == "revision" then
      pyLower (pyStrip t)
    else "revision"

/-- Python `pillar.replace("_", " ")`. -/
def pillarName (pillar : String) : String :=
  String.mk (pillar.data.map (fun c => if c = '_' then ' ' else c))

/-- `_build_revision_messages`: linear conversation replay for a regular
revision. A user message for a prior draft is emitted only when its
`revision_request` is truthy. -/
def buildRevisionMessages (s : Session) (new_request : String) : List Msg :=
  (if truthy s.source_tweet_content then
    [{ role := "user",
       content := "I\x27m writing a reply to this tweet from @"
         ++ (s.source_tweet_handle.getD "unknown") ++ ":\n\n\""
         ++ (s.source_tweet_content.getD "") ++ "\"\n\nPlease help me refine my reply." }]
   else [])
  ++ (match s.drafts.head? with
      | some d0 => [{ role := "assistant",
                      content := "Here\x27s the original draft:\n\n" ++ d0.content }]
      | none => [])
  ++ (s.drafts.drop 1).flatMap (fun d =>
      (if truthy d.revision_request then
        [{ role := "user", content := d.revision_request.getD "" }]
       else []) ++ [{ role := "assistant", content := d.content }])
  ++ [{ role := "user", content := new_request }]

/-- Insert a sample into a likes-descending list (helper for the database
`order("likes", desc=True)` of `get_samples_for_account`). -/
def insertDesc (x : VoiceSample) : List VoiceSample → List VoiceSample
  | [] => [x]
  | y :: ys => if y.likes < x.likes then x :: y :: ys else y :: insertDesc x ys

/-- Sort sample rows by likes, highest first. -/
def sortLikesDesc : List VoiceSample → List VoiceSample
  | [] => []
  | x :: xs => insertDesc x (sortLikesDesc xs)

/-- `voice_sampler.get_samples_for_account`: active rows, ordered by likes
descending, limited (the slack bot uses the default limit of 20). -/
def getSamplesForAccount (rows : List VoiceSample) (limit : Nat) : List VoiceSample :=
  (sortLikesDesc (rows.filter (fun r => r.is_active))).take limit

/-- The `pillar_keywords` dict of `_find_voice_reference`, in insertion order. -/
def pillar_keywords : List (String × String) :=
  [("market", "market_commentary"), ("commentary", "market_commentary"),
   ("education", "education"), ("educational", "education"),
   ("product", "product"),
   ("social", "social_proof"), ("proof", "social_proof")]

/-- The keyword loop of `_find_voice_reference`: first keyword occurring in the
hint for which some account declares the keyword pillar. -/
def findByPillarKeyword (accounts : List VoiceAccount) (hint_lower : String) :
    List (String × String) → Option VoiceAccount
  | [] => none
  | (keyword, pillar) :: rest =>
    if pyIn keyword hint_lower then
      match accounts.find? (fun a => !a.voice_pillars.isEmpty && a.voice_pillars.contains pillar) with
      | some acc => some acc
      | none => findByPillarKeyword accounts hint_lower rest
    else findByPillarKeyword accounts hint_lower rest

/-- `_find_voice_reference`: exact handle match, then substring handle match,
then pillar-keyword match, then an oracle-assisted best guess. Also returns
the oracle calls made. -/
def findVoiceReference (o : Oracles) (hint : String) :
    Option (VoiceAccount × List VoiceSample) × List OracleCall :=
  if o.voiceAccounts.isEmpty then (none, []) else
  match o.voiceAccounts.find? (fun a => pyLower a.twitter_handle == normHandleHint hint) with
  | some acc => (some (acc, getSamplesForAccount acc.samples 20), [])
  | none =>
  match o.voiceAccounts.find? (fun a => pyIn (normHandleHint hint) (pyLower a.twitter_handle)) with
  | some acc => (some (acc, getSamplesForAccount acc.samples 20), [])
  | none =>
  match findByPillarKeyword o.voiceAccounts (normHandleHint hint) pillar_keywords with
  | some acc => (some (acc, getSamplesForAccount acc.samples 20), [])
  | none =>
  match o.bestGuessHandle hint with
  | none => (none, [OracleCall.bestGuess hint])
  | some raw =>
    match o.voiceAccounts.find? (fun a => pyLower a.twitter_handle == normHandleHint raw) with
    | some acc => (some (acc, getSamplesForAccount acc.samples 20), [OracleCall.bestGuess hint])
    | none => (none, [OracleCall.bestGuess hint])

/-- Bullet list rendering `"\n".join(f"• {l}" for l in learnings)`. -/
def bulletList (learnings : List String) : String :=
  String.intercalate "\n" (learnings.map (fun l => "• " ++ l))

/-- The confirmation prompt posted when learnings are pending. -/
def learningsPrompt (pillar : String) (learnings : List String) : String :=
  "✅ Final version locked!\n\nBased on your edits, I noticed these preferences:\n"
    ++ bulletList learnings
    ++ "\n\nShould I remember these for future " ++ pillarName pillar
    ++ " posts?\nReply: *yes* / *yes, except [x]* / *no*"

/-- The acknowledgement posted after learnings are stored. -/
def savedPrompt (pillar : String) (learnings : List String) : String :=
  "📚 Got it! I\x27ll remember for future " ++ pillarName pillar ++ " posts:\n"
    ++ bulletList learnings

/-- `_handle_approval` body after the status guard: mark approved, then
attempt learning extraction when there was at least one revision. -/
def approvalStep (o : Oracles) (now : Int) (s : Session) : StepOut :=
  if 1 < s.drafts.length then
    match o.extractLearnings s.pillar s.drafts with
    | some learnings =>
      if learnings ≠ [] then
        { session := { s with approved_at := some now,
                              pending_learnings := learnings,
                              status := Status.learnings_pending },
          calls := [OracleCall.extract s.pillar s.drafts],
          posts := [learningsPrompt s.pillar learnings], stored := [] }
      else
        { session := { s with approved_at := some now, status := Status.complete },
          calls := [OracleCall.extract s.pillar s.drafts],
          posts := ["✅ Final version locked!"], stored := [] }
    | none =>
      { session := { s with approved_at := some now, status := Status.complete },
        calls := [OracleCall.extract s.pillar s.drafts],
        posts := ["✅ Final version locked!"], stored := [] }
  else
    { session := { s with approved_at := some now, status := Status.complete },
      calls := [], posts := ["✅ Final version locked!"], stored := [] }

/-- The exception filter of `_handle_learning_confirmation`: drop a learning
when any of the first three words of its lowercase form occurs in the
response. -/
def exceptFilter (response_lower : String) (learnings : List String) : List String :=
  learnings.filter (fun learning =>
    !(((pySplit (pyLower learning)).take 3).any (fun word => pyIn word response_lower)))

/-- The learnings kept after the optional exception filter of
`_handle_learning_confirmation` (applied only when the response contains the
word "except" and there are pending learnings). -/
def confirmedLearnings (response_lower : String) (learnings : List String) : List String :=
  if pyIn "except" response_lower && !learnings.isEmpty then
    exceptFilter response_lower learnings
  else learnings

/-- `_handle_learning_confirmation` body after the status guard. -/
def learningStep (s : Session) (thread_ts response : String) : StepOut :=
  if pyStrip (pyLower response) == "no" || pyStartsWith (pyStrip (pyLower response)) "no" then
    { session := { s with status := Status.complete },
      calls := [], posts := ["👍 No problem, preferences not saved."], stored := [] }
  else if confirmedLearnings (pyStrip (pyLower response)) s.pending_learnings ≠ [] then
    { session := { s with status := Status.complete },
      calls := [],
      posts := [savedPrompt s.pillar (confirmedLearnings (pyStrip (pyLower response)) s.pending_learnings)],
      stored := [{ pillar := s.pillar,
                   original_content := ((s.drafts.head?).map Draft.content).getD "",
                   final_content := (s.drafts.getLast?).map Draft.content,
                   learnings := confirmedLearnings (pyStrip (pyLower response)) s.pending_learnings,
                   slack_thread_ts := thread_ts }] }
  else
    { session := { s with status := Status.complete },
      calls := [], posts := ["👍 No preferences saved."], stored := [] }

/-- `_handle_context_question`: answer from context; the session is untouched. -/
def contextQuestionStep (o : Oracles) (s : Session) (question : String) : StepOut :=
  match o.answerQuestion question s with
  | some answer =>
    { session := s, calls := [OracleCall.question question],
      posts := [answer ++ "\n\n_Reply with revision requests or ✅ when ready to finalize._"],
      stored := [] }
  | none =>
    { session := s, calls := [OracleCall.question question],
      posts := ["Sorry, I couldn\x27t process that question. Try rephrasing or continue with revision requests."],
      stored := [] }

/-- Thread post announcing a regular revision. -/
def revisionPost (version : Nat) (content : String) : String :=
  "📝 *Revision " ++ toString version ++ "*\n```" ++ content
    ++ "```\n\n_Reply to refine more, react ✅ when done_"

/-- Thread post announcing a voice-styled revision. -/
def voiceRevisionPost (version : Nat) (handle content : String) : String :=
  "📝 *Revision " ++ toString version ++ "* (styled like @" ++ handle ++ ")\n```"
    ++ content ++ "```\n\n_Reply to refine more, react ✅ when done_"

/-- Error post of `_handle_revision_request` (the exception text appended by
the source is collaborator data and is not modelled). -/
def revisionErrorPost : String := "Sorry, I couldn\x27t generate a revision."

/-- Post when a voice reference resolves but has no stored samples. -/
def noSamplesPost (handle : String) : String :=
  "Found @" ++ handle ++ " but no voice samples yet. Try `!refresh-voice` first."

/-- Post when no voice reference matches the hint. -/
def noVoiceMatchPost (hint : String) : String :=
  "Couldn\x27t find a voice reference matching \"" ++ hint
    ++ "\". Use `!list-voice` to see available voices."

/-- `_handle_revision_request` body after the session lookup: voice detection,
then either the voice path (which sends the oracle only the latest draft
content plus samples) or the regular path (which sends the full replay built
by `buildRevisionMessages`). -/
def revisionStep (o : Oracles) (s : Session) (request : String) : StepOut :=
  match o.detectVoice request with
  | some voice_hint =>
    match (findVoiceReference o voice_hint).1 with
    | some (account, samples) =>
      if samples.map (fun x => x.content) ≠ [] then
        match s.drafts.getLast? with
        | some last =>
          match o.reviseWithVoice s.pillar last.content
              (samples.map (fun x => x.content)) account.twitter_handle with
          | some revised_content =>
            { session := { s with drafts := s.drafts ++
                [{ version := s.drafts.length, content := revised_content,
                   revision_request := some request,
                   voice_reference := some account.twitter_handle,
                   message_ts := o.sayTs }] },
              calls := [OracleCall.detect request] ++ (findVoiceReference o voice_hint).2
                ++ [OracleCall.reviseVoice s.pillar last.content
                     (samples.map (fun x => x.content)) account.twitter_handle],
              posts := [voiceRevisionPost s.drafts.length account.twitter_handle revised_content],
              stored := [] }
          | none =>
            { session := s,
              calls := [OracleCall.detect request] ++ (findVoiceReference o voice_hint).2
                ++ [OracleCall.reviseVoice s.pillar last.content
                     (samples.map (fun x => x.content)) account.twitter_handle],
              posts := [revisionErrorPost], stored := [] }
        | none =>
          { session := s,
            calls := [OracleCall.detect request] ++ (findVoiceReference o voice_hint).2,
            posts := [revisionErrorPost], stored := [] }
      else
        { session := s,
          calls := [OracleCall.detect request] ++ (findVoiceReference o voice_hint).2,
          posts := [noSamplesPost account.twitter_handle], stored := [] }
    | none =>
      { session := s,
        calls := [OracleCall.detect request] ++ (findVoiceReference o voice_hint).2,
        posts := [noVoiceMatchPost voice_hint], stored := [] }
  | none =>
    match o.reviseContent s.pillar (buildRevisionMessages s request) with
    | some revised_content =>
      { session := { s with drafts := s.drafts ++
          [{ version := s.drafts.length, content := revised_content,
             revision_request := some request,
             voice_reference := none,
             message_ts := o.sayTs }] },
        calls := [OracleCall.detect request,
                  OracleCall.revise s.pillar (buildRevisionMessages s request)],
        posts := [revisionPost s.drafts.length revised_content], stored := [] }
    | none =>
      { session := s,
        calls := [OracleCall.detect request,
                  OracleCall.revise s.pillar (buildRevisionMessages s request)],
        posts := [revisionErrorPost], stored := [] }

/-- `_handle_approval`: no-op unless the session exists and is iterating. -/
def handleApproval (o : Oracles) (now : Int) (st : BotState) (thread_ts : String) : Out :=
  match sessionAt st thread_ts with
  | none => noop st
  | some s =>
    if s.status = Status.iterating then liftStep st thread_ts (approvalStep o now s)
    else noop st

/-- `_handle_learning_confirmation`: no-op unless the session exists and is in
`learnings_pending`. -/
def handleLearningConfirmation (st : BotState) (thread_ts response : String) : Out :=
  match sessionAt st thread_ts with
  | none => noop st
  | some s =>
    if s.status = Status.learnings_pending then
      liftStep st thread_ts (learningStep s thread_ts response)
    else noop st

/-- `_handle_revision_request`: no-op when the session is missing (no status
guard in the source). -/
def handleRevisionRequest (o : Oracles) (st : BotState) (thread_ts request : String) : Out :=
  match sessionAt st thread_ts with
  | none => noop st
  | some s => liftStep st thread_ts (revisionStep o s request)

/-- `_handle_draft_reply`: route by session status; a cheap approval check
runs before the LLM classifier. -/
def withClassifyCall (text : String) (tail : Out) : Out :=
  { tail with calls := OracleCall.classify text :: tail.calls }

/-- `_handle_draft_reply`: route by session status; a cheap approval check
runs before the LLM classifier. -/
def handleDraftReply (o : Oracles) (now : Int) (st : BotState) (thread_ts text : String) : Out :=
  match sessionAt st thread_ts with
  | none => noop st
  | some session =>
    if session.status = Status.iterating then
      if isApprovalSignal text then handleApproval o now st thread_ts
      else
        withClassifyCall text
          (if normalizeIntent (o.classifyIntent text session) == "approval" then
            handleApproval o now st thread_ts
          else if normalizeIntent (o.classifyIntent text session) == "question" then
            liftStep st thread_ts (contextQuestionStep o session text)
          else handleRevisionRequest o st thread_ts text)
    else if session.status = Status.learnings_pending then
      handleLearningConfirmation st thread_ts text
    else noop st

/-- The session `_check_suggested_tweet_thread` materialises from a suggested
tweet. -/
def mkSuggestedSession (now : Int) (thread_ts : String) (tweet : SuggestedTweet) : Session :=
  { pillar := if tweet.relevance_type == some "reply_opportunity" then "social_proof"
              else "market_commentary",
    topic := "Reply to @" ++ tweet.account_handle,
    user_id := none,
    source_tweet_content := some tweet.content,
    source_tweet_handle := some tweet.account_handle,
    drafts := [{ version := 0, content := tweet.suggested_content.getD "",
                 revision_request := none, voice_reference := none,
                 message_ts := some thread_ts }],
    status := Status.iterating,
    pending_learnings := [],
    created_at := now,
    approved_at := none }

/-- `_check_suggested_tweet_thread`: when the thread is a suggested-tweet
message with suggested content, create a draft session on the fly (a plain
dict assignment: any session already stored under that key is replaced). -/
def checkSuggestedTweetThread (o : Oracles) (now : Int) (st : BotState) (thread_ts : String) :
    BotState × Bool :=
  match o.tweetLookup thread_ts with
  | none => (st, false)
  | some tweet =>
    if truthy tweet.suggested_content then
      ({ st with draft_sessions :=
           setSession st.draft_sessions thread_ts (mkSuggestedSession now thread_ts tweet) },
       true)
    else (st, false)

/-- The threaded-reply branch of the `message` event handler (lines 150-163 of
`slack_bot.py`), for an event that passed the bot/empty-text/command guards
and whose `thread_ts` differs from its own `ts`. -/
def handleThreadReply (o : Oracles) (now : Int) (st : BotState) (thread_ts text : String) : Out :=
  if (sessionAt st thread_ts).isSome then
    handleDraftReply o now st thread_ts text
  else
    if (checkSuggestedTweetThread o now st thread_ts).2 then
      handleDraftReply o now (checkSuggestedTweetThread o now st thread_ts).1 thread_ts text
    else
      match alookup st.generated_posts thread_ts with
      | some post_info =>
        { state := st, calls := [],
          posts := ["✅ Feedback recorded! This will be used to improve future content generation."],
          stored := [{ pillar := post_info.pillar,
                       original_content := post_info.content,
                       final_content := none, learnings := [],
                       slack_thread_ts := thread_ts }] }
      | none => noop st

/-- The scan of `handle_reaction` over `draft_sessions`: first iterating
session with drafts whose latest draft message (or thread root) is the
reacted-to message. -/
def findReactionSession : List (String × Session) → String → Option String
  | [], _ => none
  | (thread_ts, session) :: rest, reacted_ts =>
    match session.drafts.getLast? with
    | some last =>
      if session.status = Status.iterating
          && (last.message_ts == some reacted_ts || thread_ts == reacted_ts) then
        some thread_ts
      else findReactionSession rest reacted_ts
    | none => findReactionSession rest reacted_ts

/-- The `reaction_added` event handler. Empty strings model the falsy
`ts`/`channel` guard. -/
def handleReaction (o : Oracles) (now : Int) (st : BotState)
    (reaction reacted_ts channel : String) : Out :=
  if !(["white_check_mark", "heavy_check_mark", "+1", "thumbsup"].contains reaction) then noop st
  else if reacted_ts == "" || channel == "" then noop st
  else
    match findReactionSession st.draft_sessions reacted_ts with
    | some thread_ts => handleApproval o now st thread_ts
    | none => noop st

/-- The fixed pillar list validated by `_generate_post`. -/
def validPillars : List String := ["market_commentary", "education", "product", "social_proof"]

/-- The session `_generate_post` creates for a fresh draft. -/
def mkGeneratedSession (now : Int) (thread_ts : String) (pillar topic_result : String)
    (user_id : Option String) (content : String) : Session :=
  { pillar := pillar,
    topic := topic_result,
    user_id := user_id,
    source_tweet_content := none,
    source_tweet_handle := none,
    drafts := [{ version := 0, content := content,
                 revision_request := none, voice_reference := none,
                 message_ts := some thread_ts }],
    status := Status.iterating,
    pending_learnings := [],
    created_at := now,
    approved_at := none }

/-- `_generate_post`: validate the pillar, generate, post, create the session
keyed by the posted message ts, then lazily sweep expired sessions. -/
def generatePost (o : Oracles) (now : Int) (st : BotState) (pillar : String)
    (topic : Option String) (user_id : Option String) : Out :=
  if !(validPillars.contains pillar) then
    { state := st, calls := [], posts := ["❌ Invalid pillar."], stored := [] }
  else
    match o.generateSinglePost pillar topic with
    | none =>
      { state := st, calls := [OracleCall.generate pillar topic],
        posts := ["❌ Error generating post."], stored := [] }
    | some (content, topic_result) =>
      match o.sayTs with
      | none =>
        { state := st, calls := [OracleCall.generate pillar topic],
          posts := ["Generated post: " ++ topic_result], stored := [] }
      | some thread_ts =>
        { state := { st with draft_sessions :=
             cleanupOldSessions now (setSession st.draft_sessions thread_ts
               (mkGeneratedSession now thread_ts pillar topic_result user_id content)) },
          calls := [OracleCall.generate pillar topic],
          posts := ["Generated post: " ++ topic_result], stored := [] }

/-- The drafts invariant of the spec: non-empty and `version` equals index. -/
def draftsOKb (s : Session) : Bool :=
  !s.drafts.isEmpty && s.drafts.map Draft.version == List.range s.drafts.length

/-- Every stored session satisfies the drafts invariant. -/
def stateOKb (st : BotState) : Bool :=
  st.draft_sessions.all (fun p => draftsOKb p.2)

/-- How a single session may evolve under one handled event: status only moves
forward, drafts are only appended to, and the drafts invariant is preserved. -/
def SessionStep (s v : Session) : Prop :=
  s.status.rank ≤ v.status.rank ∧ s.drafts <+: v.drafts
    ∧ (draftsOKb s = true → draftsOKb v = true)

/-- Modelled from the spec (section 4.3): the replay shape a regular revision
must send — source-reference context if present, the original draft, each
subsequent (instruction, draft) pair in order, then the new instruction. -/
def revisionReplaySpec (s : Session) (new_request : String) : List Msg :=
  (if truthy s.source_tweet_content then
    [{ role := "user",
       content := "I\x27m writing a reply to this tweet from @"
         ++ (s.source_tweet_handle.getD "unknown") ++ ":\n\n\""
         ++ (s.source_tweet_content.getD "") ++ "\"\n\nPlease help me refine my reply." }]
   else [])
  ++ (match s.drafts.head? with
      | some d0 => [{ role := "assistant",
                      content := "Here\x27s the original draft:\n\n" ++ d0.content }]
      | none => [])
  ++ (s.drafts.drop 1).flatMap (fun d =>
      [{ role := "user", content := d.revision_request.getD "" },
       { role := "assistant", content := d.content }])
  ++ [{ role := "user", content := new_request }]

/-- Whether a string occurs in any textual argument of an oracle call. -/
def callMentions (needle : String) : OracleCall → Bool
  | .classify text => pyIn needle text
  | .question text => pyIn needle text
  | .detect text => pyIn needle text
  | .bestGuess hint => pyIn needle hint
  | .reviseVoice pillar current_content voice_samples voice_handle =>
      pyIn needle pillar || pyIn needle current_content
        || voice_samples.any (pyIn needle) || pyIn needle voice_handle
  | .revise pillar messages =>
      pyIn needle pillar || messages.any (fun m => pyIn needle m.content)
  | .extract pillar drafts =>
      pyIn needle pillar || drafts.any (fun d => pyIn needle d.content)
  | .generate pillar topic => pyIn needle pillar || pyIn needle (topic.getD "")

/-- The lists of learnings a handler run passed to `feedback_service.create`. -/
def storedLearnings (out : Out) : List (List String) := out.stored.map FeedbackRecord.learnings

section Lemmas

theorem alookup_map_set (store : List (String × Session)) (k t : String) (v : Session) :
    alookup (store.map (fun p => if p.1 = k then (k, v) else p)) t =
      if t = k then (alookup store k).map (fun _ => v) else alookup store t := by
  induction store with
  | nil => by_cases h : t = k <;> simp [alookup, h]
  | cons hd tl ih =>
    obtain ⟨a, b⟩ := hd
    simp only [List.map_cons]
    by_cases hak : a = k
    · rw [show (if ((a, b) : String × Session).1 = k then (k, v) else (a, b)) = (k, v) from if_pos hak]
      subst hak
      by_cases hta : t = a
      · subst hta; simp [alookup]
      · simp [alookup, hta, ih]
    · rw [show (if ((a, b) : String × Session).1 = k then (k, v) else (a, b)) = (a, b) from if_neg hak]
      have hka : ¬k = a := fun hc => hak hc.symm
      by_cases hta : t = a
      · subst hta
        simp [alookup, hak]
      · simp [alookup, hta, hka, ih]

theorem alookup_append_single (store : List (String × Session)) (k t : String) (v : Session)
    (h : alookup store k = none) :
    alookup (store ++ [(k, v)]) t = if t = k then some v else alookup store t := by
  induction store with
  | nil => by_cases htk : t = k <;> simp [alookup, htk]
  | cons hd tl ih =>
    obtain ⟨a, b⟩ := hd
    have hka : ¬k = a := by
      intro hc
      subst hc
      simp [alookup] at h
    have h2 : alookup tl k = none := by
      simpa [alookup, hka] using h
    by_cases hta : t = a
    · subst hta
      have htk : ¬t = k := fun hc => hka hc.symm
      simp [alookup, htk]
    · simp [alookup, hta, ih h2]

theorem alookup_setSession (store : List (String × Session)) (k t : String) (v : Session) :
    alookup (setSession store k v) t = if t = k then some v else alookup store t := by
  unfold setSession
  by_cases h : (alookup store k).isSome
  · rw [if_pos h, alookup_map_set]
    obtain ⟨w, hw⟩ := Option.isSome_iff_exists.mp h
    by_cases htk : t = k <;> simp [htk, hw]
  · rw [if_neg h]
    have hn : alookup store k = none := by
      cases hc : alookup store k with
      | none => rfl
      | some w => rw [hc] at h; simp at h
    rw [alookup_append_single store k t v hn]

theorem setSession_all (store : List (String × Session)) (k : String) (v : Session)
    (P : String × Session → Bool)
    (h1 : store.all P = true) (h2 : P (k, v) = true) :
    (setSession store k v).all P = true := by
  unfold setSession
  split
  · simp only [List.all_map, List.all_eq_true] at h1 ⊢
    intro p hp
    by_cases hk : p.1 = k
    · simpa [Function.comp, hk] using h2
    · simpa [Function.comp, hk] using h1 p hp
  · simp only [List.all_append, List.all_eq_true, Bool.and_eq_true] at h1 ⊢
    refine ⟨fun x hx => h1 x hx, ?_⟩
    simpa using h2

theorem all_filter_of_all (l : List (String × Session)) (p : String × Session → Bool)
    (q : String × Session → Bool) (h : l.all p = true) : (l.filter q).all p = true := by
  simp only [List.all_eq_true] at h ⊢
  intro x hx
  exact h x (List.mem_filter.mp hx).1

theorem rank_le_three (x : Status) : x.rank ≤ 3 := by
  cases x <;> simp [Status.rank]

theorem draftsOKb_of_drafts_eq {s v : Session} (h : v.drafts = s.drafts) :
    draftsOKb v = draftsOKb s := by
  simp [draftsOKb, h]

theorem SessionStep_refl (s : Session) : SessionStep s s :=
  ⟨le_refl _, List.prefix_refl _, fun h => h⟩

theorem SessionStep_of_drafts_eq {s v : Session} (hd : v.drafts = s.drafts)
    (hr : s.status.rank ≤ v.status.rank) : SessionStep s v :=
  ⟨hr, hd ▸ List.prefix_refl _, fun h => (draftsOKb_of_drafts_eq hd).symm ▸ h⟩

theorem draftsOKb_append {s : Session} {d : Draft} (h : draftsOKb s = true)
    (hv : d.version = s.drafts.length) :
    draftsOKb { s with drafts := s.drafts ++ [d] } = true := by
  simp only [draftsOKb, Bool.and_eq_true, Bool.not_eq_true', List.isEmpty_eq_false,
    beq_iff_eq] at h ⊢
  constructor
  · simp
  · rw [List.map_append, h.2, List.length_append]
    simp [hv, List.range_succ]

theorem approvalStep_drafts (o : Oracles) (now : Int) (s : Session) :
    (approvalStep o now s).session.drafts = s.drafts := by
  unfold approvalStep
  split
  · split
    · split <;> rfl
    · rfl
  · rfl

theorem approvalStep_status (o : Oracles) (now : Int) (s : Session) :
    (approvalStep o now s).session.status = Status.learnings_pending
      ∨ (approvalStep o now s).session.status = Status.complete := by
  unfold approvalStep
  split
  · split
    · split
      · exact Or.inl rfl
      · exact Or.inr rfl
    · exact Or.inr rfl
  · exact Or.inr rfl

theorem approvalStep_sessionStep (o : Oracles) (now : Int) (s : Session)
    (h : s.status = Status.iterating) :
    SessionStep s (approvalStep o now s).session := by
  refine SessionStep_of_drafts_eq (approvalStep_drafts o now s) ?_
  rw [h]
  exact Nat.zero_le _

theorem learningStep_drafts (s : Session) (tts resp : String) :
    (learningStep s tts resp).session.drafts = s.drafts := by
  unfold learningStep
  split
  · rfl
  · split <;> rfl

theorem learningStep_status (s : Session) (tts resp : String) :
    (learningStep s tts resp).session.status = Status.complete := by
  unfold learningStep
  split
  · rfl
  · split <;> rfl

theorem learningStep_sessionStep (s : Session) (tts resp : String) :
    SessionStep s (learningStep s tts resp).session := by
  refine SessionStep_of_drafts_eq (learningStep_drafts s tts resp) ?_
  rw [learningStep_status]
  exact rank_le_three _

theorem contextQuestionStep_session (o : Oracles) (s : Session) (q : String) :
    (contextQuestionStep o s q).session = s := by
  unfold contextQuestionStep
  split <;> rfl

theorem revisionStep_session (o : Oracles) (s : Session) (req : String) :
    (revisionStep o s req).session = s
      ∨ ∃ d, d.version = s.drafts.length
          ∧ (revisionStep o s req).session = { s with drafts := s.drafts ++ [d] } := by
  unfold revisionStep
  split
  · split
    · split
      · split
        · split
          · exact Or.inr ⟨_, rfl, rfl⟩
          · exact Or.inl rfl
        · exact Or.inl rfl
      · exact Or.inl rfl
    · exact Or.inl rfl
  · split
    · exact Or.inr ⟨_, rfl, rfl⟩
    · exact Or.inl rfl

theorem revisionStep_sessionStep (o : Oracles) (s : Session) (req : String) :
    SessionStep s (revisionStep o s req).session := by
  rcases revisionStep_session o s req with h | ⟨d, hv, h⟩
  · rw [h]; exact SessionStep_refl s
  · rw [h]
    exact ⟨le_refl _, List.prefix_append _ _, fun hok => draftsOKb_append hok hv⟩

theorem handleApproval_none {o : Oracles} {now : Int} {st : BotState} {tts : String}
    (h : sessionAt st tts = none) : handleApproval o now st tts = noop st := by
  unfold handleApproval
  rw [h]

theorem handleApproval_not_iterating {o : Oracles} {now : Int} {st : BotState} {tts : String}
    {s : Session} (h : sessionAt st tts = some s) (hs : s.status ≠ Status.iterating) :
    handleApproval o now st tts = noop st := by
  unfold handleApproval
  rw [h]
  simp [hs]

theorem handleApproval_of_iterating {o : Oracles} {now : Int} {st : BotState} {tts : String}
    {s : Session} (h : sessionAt st tts = some s) (hs : s.status = Status.iterating) :
    handleApproval o now st tts = liftStep st tts (approvalStep o now s) := by
  unfold handleApproval
  rw [h]
  simp [hs]

theorem handleApproval_state_cases (o : Oracles) (now : Int) (st : BotState) (tts : String) :
    (handleApproval o now st tts).state = st
      ∨ ∃ s v, sessionAt st tts = some s ∧ s.status = Status.iterating ∧ SessionStep s v
          ∧ (handleApproval o now st tts).state
              = { st with draft_sessions := setSession st.draft_sessions tts v } := by
  cases h : sessionAt st tts with
  | none => rw [handleApproval_none h]; exact Or.inl rfl
  | some s =>
    by_cases hs : s.status = Status.iterating
    · rw [handleApproval_of_iterating h hs]
      exact Or.inr ⟨s, _, rfl, hs, approvalStep_sessionStep o now s hs, rfl⟩
    · rw [handleApproval_not_iterating h hs]; exact Or.inl rfl

theorem handleLearning_none {st : BotState} {tts resp : String}
    (h : sessionAt st tts = none) : handleLearningConfirmation st tts resp = noop st := by
  unfold handleLearningConfirmation
  rw [h]

theorem handleLearning_not_pending {st : BotState} {tts resp : String} {s : Session}
    (h : sessionAt st tts = some s) (hs : s.status ≠ Status.learnings_pending) :
    handleLearningConfirmation st tts resp = noop st := by
  unfold handleLearningConfirmation
  rw [h]
  simp [hs]

theorem handleLearning_of_pending {st : BotState} {tts resp : String} {s : Session}
    (h : sessionAt st tts = some s) (hs : s.status = Status.learnings_pending) :
    handleLearningConfirmation st tts resp = liftStep st tts (learningStep s tts resp) := by
  unfold handleLearningConfirmation
  rw [h]
  simp [hs]

theorem handleRevisionRequest_none {o : Oracles} {st : BotState} {tts req : String}
    (h : sessionAt st tts = none) : handleRevisionRequest o st tts req = noop st := by
  unfold handleRevisionRequest
  rw [h]

theorem handleRevisionRequest_of_some {o : Oracles} {st : BotState} {tts req : String}
    {s : Session} (h : sessionAt st tts = some s) :
    handleRevisionRequest o st tts req = liftStep st tts (revisionStep o s req) := by
  unfold handleRevisionRequest
  rw [h]

theorem handleDraftReply_none {o : Oracles} {now : Int} {st : BotState} {tts text : String}
    (h : sessionAt st tts = none) : handleDraftReply o now st tts text = noop st := by
  unfold handleDraftReply
  rw [h]

theorem handleDraftReply_state_cases (o : Oracles) (now : Int) (st : BotState)
    (tts text : String) :
    (handleDraftReply o now st tts text).state = st
      ∨ ∃ s v, sessionAt st tts = some s ∧ SessionStep s v
          ∧ (handleDraftReply o now st tts text).state
              = { st with draft_sessions := setSession st.draft_sessions tts v } := by
  unfold handleDraftReply
  cases h : sessionAt st tts with
  | none => exact Or.inl rfl
  | some s =>
    dsimp only
    by_cases h1 : s.status = Status.iterating
    · rw [if_pos h1]
      by_cases h2 : isApprovalSignal text
      · rw [if_pos h2]
        rcases handleApproval_state_cases o now st tts with hA | ⟨s2, v, hl, _, hstep, hA⟩
        · exact Or.inl hA
        · exact Or.inr ⟨s2, v, h.symm.trans hl, hstep, hA⟩
      · rw [if_neg h2]
        by_cases h3 : normalizeIntent (o.classifyIntent text s) == "approval"
        · rw [if_pos h3]
          rcases handleApproval_state_cases o now st tts with hA | ⟨s2, v, hl, _, hstep, hA⟩
          · exact Or.inl hA
          · exact Or.inr ⟨s2, v, h.symm.trans hl, hstep, hA⟩
        · rw [if_neg h3]
          by_cases h4 : normalizeIntent (o.classifyIntent text s) == "question"
          · rw [if_pos h4]
            refine Or.inr ⟨s, (contextQuestionStep o s text).session, rfl, ?_, rfl⟩
            rw [contextQuestionStep_session]
            exact SessionStep_refl s
          · rw [if_neg h4]
            rw [handleRevisionRequest_of_some h]
            exact Or.inr ⟨s, _, rfl, revisionStep_sessionStep o s text, rfl⟩
    · rw [if_neg h1]
      by_cases h5 : s.status = Status.learnings_pending
      · rw [if_pos h5, handleLearning_of_pending h h5]
        exact Or.inr ⟨s, _, rfl, learningStep_sessionStep s tts text, rfl⟩
      · rw [if_neg h5]
        exact Or.inl rfl

theorem checkSuggested_cases (o : Oracles) (now : Int) (st : BotState) (tts : String) :
    checkSuggestedTweetThread o now st tts = (st, false)
      ∨ ∃ tweet, o.tweetLookup tts = some tweet ∧ truthy tweet.suggested_content = true
          ∧ checkSuggestedTweetThread o now st tts
              = ({ st with draft_sessions :=
                     setSession st.draft_sessions tts (mkSuggestedSession now tts tweet) },
                 true) := by
  unfold checkSuggestedTweetThread
  cases h : o.tweetLookup tts with
  | none => exact Or.inl rfl
  | some tweet =>
    dsimp only
    by_cases ht : truthy tweet.suggested_content
    · rw [if_pos ht]
      exact Or.inr ⟨tweet, rfl, ht, rfl⟩
    · rw [if_neg ht]
      exact Or.inl rfl

theorem draftsOKb_mkSuggested (now : Int) (tts : String) (tweet : SuggestedTweet) :
    draftsOKb (mkSuggestedSession now tts tweet) = true := by
  simp [draftsOKb, mkSuggestedSession, List.range_succ]

theorem draftsOKb_mkGenerated (now : Int) (tts pillar topic_result : String)
    (user_id : Option String) (content : String) :
    draftsOKb (mkGeneratedSession now tts pillar topic_result user_id content) = true := by
  simp [draftsOKb, mkGeneratedSession, List.range_succ]

theorem handleThreadReply_state_cases (o : Oracles) (now : Int) (st : BotState)
    (tts text : String) :
    (handleThreadReply o now st tts text).state = st
      ∨ (∃ s v, sessionAt st tts = some s ∧ SessionStep s v
          ∧ (handleThreadReply o now st tts text).state
              = { st with draft_sessions := setSession st.draft_sessions tts v })
      ∨ (sessionAt st tts = none ∧ ∃ f v, draftsOKb f = true ∧ SessionStep f v
          ∧ (handleThreadReply o now st tts text).state
              = { st with draft_sessions :=
                    setSession (setSession st.draft_sessions tts f) tts v })
      ∨ (sessionAt st tts = none ∧ ∃ f, draftsOKb f = true
          ∧ (handleThreadReply o now st tts text).state
              = { st with draft_sessions := setSession st.draft_sessions tts f }) := by
  unfold handleThreadReply
  by_cases h : (sessionAt st tts).isSome
  · rw [if_pos h]
    rcases handleDraftReply_state_cases o now st tts text with hD | ⟨s, v, hl, hstep, hD⟩
    · exact Or.inl hD
    · exact Or.inr (Or.inl ⟨s, v, hl, hstep, hD⟩)
  · rw [if_neg h]
    have hnone : sessionAt st tts = none := Option.not_isSome_iff_eq_none.mp h
    rcases checkSuggested_cases o now st tts with hC | ⟨tweet, hlk, ht, hC⟩
    · rw [hC]
      simp only [if_neg (Bool.false_ne_true)]
      cases alookup st.generated_posts tts with
      | none => exact Or.inl rfl
      | some gp => exact Or.inl rfl
    · rw [hC]
      simp only [if_pos trivial]
      rcases handleDraftReply_state_cases o now
        { st with draft_sessions :=
            setSession st.draft_sessions tts (mkSuggestedSession now tts tweet) } tts text with
        hD | ⟨s0, v, hl0, hstep, hD⟩
      · rw [hD]
        exact Or.inr (Or.inr (Or.inr ⟨hnone, mkSuggestedSession now tts tweet,
          draftsOKb_mkSuggested now tts tweet, rfl⟩))
      · have hs0 : s0 = mkSuggestedSession now tts tweet := by
          have := hl0
          simp only [sessionAt] at this
          rw [alookup_setSession] at this
          simp at this
          exact this.symm
        subst hs0
        rw [hD]
        exact Or.inr (Or.inr (Or.inl ⟨hnone, mkSuggestedSession now tts tweet, v,
          draftsOKb_mkSuggested now tts tweet, hstep, rfl⟩))

theorem handleReaction_state_cases (o : Oracles) (now : Int) (st : BotState)
    (reaction rts ch : String) :
    (handleReaction o now st reaction rts ch).state = st
      ∨ ∃ s v tts, sessionAt st tts = some s ∧ s.status = Status.iterating ∧ SessionStep s v
          ∧ (handleReaction o now st reaction rts ch).state
              = { st with draft_sessions := setSession st.draft_sessions tts v } := by
  unfold handleReaction
  split
  · exact Or.inl rfl
  · split
    · exact Or.inl rfl
    · cases hf : findReactionSession st.draft_sessions rts with
      | none => exact Or.inl rfl
      | some tts =>
        rcases handleApproval_state_cases o now st tts with hA | ⟨s, v, hl, hit, hstep, hA⟩
        · exact Or.inl hA
        · exact Or.inr ⟨s, v, tts, hl, hit, hstep, hA⟩

theorem all_alookup {β : Type} (l : List (String × β)) (P : String × β → Bool)
    (t : String) (b : β) (hall : l.all P = true) (h : alookup l t = some b) :
    P (t, b) = true := by
  induction l with
  | nil => simp [alookup] at h
  | cons hd tl ih =>
    obtain ⟨a, c⟩ := hd
    simp only [List.all_cons, Bool.and_eq_true] at hall
    by_cases hta : t = a
    · subst hta
      have hcb : some c = some b := by simpa [alookup] using h
      cases hcb
      exact hall.1
    · simp only [alookup, if_neg hta] at h
      exact ih hall.2 h

theorem draftsOKb_of_stateOK {st : BotState} {t : String} {s : Session}
    (hok : stateOKb st = true) (h : sessionAt st t = some s) : draftsOKb s = true :=
  all_alookup st.draft_sessions _ t s hok h

theorem rank_mono_reply (o : Oracles) (now : Int) (st : BotState) (tts text t : String)
    (s s' : Session) (h : sessionAt st t = some s)
    (h' : sessionAt (handleThreadReply o now st tts text).state t = some s') :
    s.status.rank ≤ s'.status.rank ∧ s.drafts <+: s'.drafts := by
  rcases handleThreadReply_state_cases o now st tts text with
    hst | ⟨s0, v, hl, hstep, hst⟩ | ⟨hn, f, v, hokf, hstep, hst⟩ | ⟨hn, f, hokf, hst⟩
  · rw [hst] at h'
    rw [h'] at h
    cases h
    exact ⟨le_refl _, List.prefix_refl _⟩
  · rw [hst] at h'
    simp only [sessionAt, alookup_setSession] at h'
    by_cases ht : t = tts
    · rw [if_pos ht] at h'
      cases h'
      rw [ht] at h
      rw [h] at hl
      cases hl
      exact ⟨hstep.1, hstep.2.1⟩
    · rw [if_neg ht] at h'
      simp only [sessionAt] at h
      rw [h'] at h
      cases h
      exact ⟨le_refl _, List.prefix_refl _⟩
  · rw [hst] at h'
    simp only [sessionAt, alookup_setSession] at h'
    by_cases ht : t = tts
    · rw [ht] at h
      rw [h] at hn
      cases hn
    · rw [if_neg ht, if_neg ht] at h'
      simp only [sessionAt] at h
      rw [h'] at h
      cases h
      exact ⟨le_refl _, List.prefix_refl _⟩
  · rw [hst] at h'
    simp only [sessionAt, alookup_setSession] at h'
    by_cases ht : t = tts
    · rw [ht] at h
      rw [h] at hn
      cases hn
    · rw [if_neg ht] at h'
      simp only [sessionAt] at h
      rw [h'] at h
      cases h
      exact ⟨le_refl _, List.prefix_refl _⟩

theorem rank_mono_reaction (o : Oracles) (now : Int) (st : BotState)
    (reaction rts ch t : String) (s s' : Session) (h : sessionAt st t = some s)
    (h' : sessionAt (handleReaction o now st reaction rts ch).state t = some s') :
    s.status.rank ≤ s'.status.rank ∧ s.drafts <+: s'.drafts := by
  rcases handleReaction_state_cases o now st reaction rts ch with
    hst | ⟨s0, v, tts, hl, _, hstep, hst⟩
  · rw [hst] at h'
    rw [h'] at h
    cases h
    exact ⟨le_refl _, List.prefix_refl _⟩
  · rw [hst] at h'
    simp only [sessionAt, alookup_setSession] at h'
    by_cases ht : t = tts
    · rw [if_pos ht] at h'
      cases h'
      rw [ht] at h
      rw [h] at hl
      cases hl
      exact ⟨hstep.1, hstep.2.1⟩
    · rw [if_neg ht] at h'
      simp only [sessionAt] at h
      rw [h'] at h
      cases h
      exact ⟨le_refl _, List.prefix_refl _⟩

theorem stateOK_reply (o : Oracles) (now : Int) (st : BotState) (tts text : String)
    (hok : stateOKb st = true) :
    stateOKb (handleThreadReply o now st tts text).state = true := by
  rcases handleThreadReply_state_cases o now st tts text with
    hst | ⟨s0, v, hl, hstep, hst⟩ | ⟨hn, f, v, hokf, hstep, hst⟩ | ⟨hn, f, hokf, hst⟩
  · rw [hst]; exact hok
  · rw [hst]
    exact setSession_all _ _ _ _ hok (hstep.2.2 (draftsOKb_of_stateOK hok hl))
  · rw [hst]
    exact setSession_all _ _ _ _ (setSession_all _ _ _ _ hok hokf) (hstep.2.2 hokf)
  · rw [hst]
    exact setSession_all _ _ _ _ hok hokf

theorem stateOK_reaction (o : Oracles) (now : Int) (st : BotState)
    (reaction rts ch : String) (hok : stateOKb st = true) :
    stateOKb (handleReaction o now st reaction rts ch).state = true := by
  rcases handleReaction_state_cases o now st reaction rts ch with
    hst | ⟨s0, v, tts, hl, _, hstep, hst⟩
  · rw [hst]; exact hok
  · rw [hst]
    exact setSession_all _ _ _ _ hok (hstep.2.2 (draftsOKb_of_stateOK hok hl))

theorem generatePost_state_cases (o : Oracles) (now : Int) (st : BotState)
    (pillar : String) (topic : Option String) (uid : Option String) :
    (generatePost o now st pillar topic uid).state = st
      ∨ ∃ thread_ts content topic_result,
          (generatePost o now st pillar topic uid).state
            = { st with draft_sessions :=
                  cleanupOldSessions now (setSession st.draft_sessions thread_ts
                    (mkGeneratedSession now thread_ts pillar topic_result uid content)) } := by
  unfold generatePost
  split
  · exact Or.inl rfl
  · split
    · exact Or.inl rfl
    · split
      · exact Or.inl rfl
      · exact Or.inr ⟨_, _, _, rfl⟩

theorem stateOK_generatePost (o : Oracles) (now : Int) (st : BotState)
    (pillar : String) (topic : Option String) (uid : Option String)
    (hok : stateOKb st = true) :
    stateOKb (generatePost o now st pillar topic uid).state = true := by
  rcases generatePost_state_cases o now st pillar topic uid with
    hst | ⟨tts, content, topic_result, hst⟩
  · rw [hst]; exact hok
  · rw [hst]
    exact all_filter_of_all _ _ _
      (setSession_all _ _ _ _ hok (draftsOKb_mkGenerated now tts pillar topic_result uid content))

end Lemmas

/-! Concrete fixtures used by witnesses and counterexamples. -/

namespace Fixture

/-- Oracles whose every collaborator call fails or returns nothing. -/
def noneOracles : Oracles :=
  { classifyIntent := fun _ _ => none,
    answerQuestion := fun _ _ => none,
    detectVoice := fun _ => none,
    bestGuessHandle := fun _ => none,
    reviseWithVoice := fun _ _ _ _ => none,
    reviseContent := fun _ _ => none,
    extractLearnings := fun _ _ => none,
    tweetLookup := fun _ => none,
    generateSinglePost := fun _ _ => none,
    voiceAccounts := [],
    sayTs := none }

def d0 : Draft :=
  { version := 0, content := "Draft A", revision_request := none,
    voice_reference := none, message_ts := some "t1" }

def d1 : Draft :=
  { version := 1, content := "Draft B", revision_request := some "make it shorter",
    voice_reference := none, message_ts := some "t2" }

def sIter : Session :=
  { pillar := "market_commentary", topic := "the naira", user_id := none,
    source_tweet_content := none, source_tweet_handle := none,
    drafts := [d0], status := Status.iterating, pending_learnings := [],
    created_at := 0, approved_at := none }

def sIter2 : Session := { sIter with drafts := [d0, d1] }

def sPending : Session :=
  { sIter with
      drafts := [d0, d1],
      status := Status.learnings_pending,
      pending_learnings := ["prefers shorter sentences"] }

def sComplete : Session := { sIter with status := Status.complete }

def st1 : BotState := { draft_sessions := [("t1", sIter)], generated_posts := [] }

def st2 : BotState := { draft_sessions := [("t1", sIter2)], generated_posts := [] }

def stPending : BotState := { draft_sessions := [("t1", sPending)], generated_posts := [] }

def stComplete : BotState := { draft_sessions := [("t1", sComplete)], generated_posts := [] }

def stEmpty : BotState := { draft_sessions := [], generated_posts := [] }

/-- Oracles that extract one learning (used to drive the learnings path). -/
def learnOracles : Oracles :=
  { noneOracles with extractLearnings := fun _ _ => some ["prefers shorter sentences"] }

end Fixture

/-- C1: for every stored draft session and every inbound event the bot handles
(a threaded reply — which covers revision, question, approval and
learning-confirmation replies — or an approval reaction), the status of the
session only moves forward in the order
iterating → approved → learnings_pending → complete; no handler moves any
session's status backward. -/
theorem c1_status_monotone (o : Oracles) (now : Int) (st : BotState)
    (tts text reaction rts ch t : String) (s s' : Session)
    (h : sessionAt st t = some s) :
    (sessionAt (handleThreadReply o now st tts text).state t = some s' →
       s.status.rank ≤ s'.status.rank)
    ∧ (sessionAt (handleReaction o now st reaction rts ch).state t = some s' →
       s.status.rank ≤ s'.status.rank) :=
  ⟨fun h' => (rank_mono_reply o now st tts text t s s' h h').1,
   fun h' => (rank_mono_reaction o now st reaction rts ch t s s' h h').1⟩

theorem c1_status_monotone_witness :
    sessionAt Fixture.st1 "t1" = some Fixture.sIter
    ∧ ((sessionAt (handleThreadReply Fixture.noneOracles 0 Fixture.st1 "t1" "hello").state "t1"
          = some Fixture.sIter → Fixture.sIter.status.rank ≤ Fixture.sIter.status.rank)
      ∧ (sessionAt (handleReaction Fixture.noneOracles 0 Fixture.st1
            "white_check_mark" "zz" "ch").state "t1"
          = some Fixture.sIter → Fixture.sIter.status.rank ≤ Fixture.sIter.status.rank)) :=
  ⟨by decide,
   c1_status_monotone Fixture.noneOracles 0 Fixture.st1 "t1" "hello"
     "white_check_mark" "zz" "ch" "t1" Fixture.sIter Fixture.sIter (by decide)⟩

/-- C5: the drafts sequence of every stored session is non-empty with
`version` equal to index (`draftsOKb`), this invariant is preserved by every
handled event (thread replies, reactions, and session-creating generation),
existing sessions' drafts are only ever appended to (old drafts are a prefix
of the new ones), and the invariant forces `drafts[i].version = i` at every
index, with the original draft at index 0. -/
theorem c5_drafts_invariant (o : Oracles) (now : Int) (st : BotState)
    (tts text reaction rts ch pillar t : String) (topic uid : Option String)
    (s s' : Session) :
    (stateOKb st = true →
       stateOKb (handleThreadReply o now st tts text).state = true
       ∧ stateOKb (handleReaction o now st reaction rts ch).state = true
       ∧ stateOKb (generatePost o now st pillar topic uid).state = true)
    ∧ (sessionAt st t = some s →
        (sessionAt (handleThreadReply o now st tts text).state t = some s' →
          s.drafts <+: s'.drafts)
        ∧ (sessionAt (handleReaction o now st reaction rts ch).state t = some s' →
          s.drafts <+: s'.drafts))
    ∧ (∀ sess : Session, draftsOKb sess = true →
        sess.drafts ≠ []
        ∧ ∀ i, ∀ hi : i < sess.drafts.length, (sess.drafts.get ⟨i, hi⟩).version = i) := by
  refine ⟨fun hok => ⟨stateOK_reply o now st tts text hok,
    stateOK_reaction o now st reaction rts ch hok,
    stateOK_generatePost o now st pillar topic uid hok⟩, ?_, ?_⟩
  · intro h
    exact ⟨fun h' => (rank_mono_reply o now st tts text t s s' h h').2,
      fun h' => (rank_mono_reaction o now st reaction rts ch t s s' h h').2⟩
  · intro sess hok
    simp only [draftsOKb, Bool.and_eq_true, Bool.not_eq_true', List.isEmpty_eq_false,
      beq_iff_eq] at hok
    refine ⟨hok.1, fun i hi => ?_⟩
    have hlen : i < (sess.drafts.map Draft.version).length := by simpa using hi
    have e1 : (sess.drafts.map Draft.version).get ⟨i, hlen⟩
        = (sess.drafts.get ⟨i, hi⟩).version := by
      simp
    have e2 : (sess.drafts.map Draft.version).get ⟨i, hlen⟩
        = (List.range sess.drafts.length).get ⟨i, by simpa using hi⟩ := by
      have h2 := hok.2
      exact List.get_of_eq h2 _
    rw [e2] at e1
    rw [← e1]
    simp

theorem c5_drafts_invariant_witness :
    stateOKb Fixture.st2 = true
    ∧ sessionAt Fixture.st2 "t1" = some Fixture.sIter2
    ∧ ((stateOKb Fixture.st2 = true →
         stateOKb (handleThreadReply Fixture.noneOracles 0 Fixture.st2 "t1" "hello").state = true
         ∧ stateOKb (handleReaction Fixture.noneOracles 0 Fixture.st2 "+1" "t2" "ch").state = true
         ∧ stateOKb (generatePost Fixture.noneOracles 0 Fixture.st2 "education" none none).state
             = true)
      ∧ (sessionAt Fixture.st2 "t1" = some Fixture.sIter2 →
          (sessionAt (handleThreadReply Fixture.noneOracles 0 Fixture.st2 "t1" "hello").state "t1"
              = some Fixture.sIter2 → Fixture.sIter2.drafts <+: Fixture.sIter2.drafts)
          ∧ (sessionAt (handleReaction Fixture.noneOracles 0 Fixture.st2 "+1" "t2" "ch").state "t1"
              = some Fixture.sIter2 → Fixture.sIter2.drafts <+: Fixture.sIter2.drafts))
      ∧ (∀ sess : Session, draftsOKb sess = true →
          sess.drafts ≠ []
          ∧ ∀ i, ∀ hi : i < sess.drafts.length, (sess.drafts.get ⟨i, hi⟩).version = i)) :=
  ⟨by decide, by decide,
   c5_drafts_invariant Fixture.noneOracles 0 Fixture.st2 "t1" "hello" "+1" "t2" "ch"
     "education" "t1" none none Fixture.sIter2 Fixture.sIter2⟩

/-- C2: approving an iterating session with exactly one draft completes it
directly (no learning extraction, hence never `learnings_pending`); approving
an iterating session with at least two drafts whose learning extraction
returns a non-empty list puts it in `learnings_pending` (not `complete`), no
reaction event can move it from there, and the session reaches `complete`
exactly when a learning-confirmation reply is processed. -/
theorem c2_approval_paths (o : Oracles) (now : Int) (st : BotState) (tts : String)
    (s : Session) (ls : List String)
    (h : sessionAt st tts = some s) (hs : s.status = Status.iterating) :
    (s.drafts.length = 1 →
       sessionAt (handleApproval o now st tts).state tts
         = some { s with approved_at := some now, status := Status.complete }
       ∧ (handleApproval o now st tts).calls = [])
    ∧ (2 ≤ s.drafts.length → o.extractLearnings s.pillar s.drafts = some ls → ls ≠ [] →
       sessionAt (handleApproval o now st tts).state tts
         = some { s with approved_at := some now, pending_learnings := ls,
                         status := Status.learnings_pending }
       ∧ Status.learnings_pending ≠ Status.complete
       ∧ (∀ reaction rts ch,
           sessionAt (handleReaction o now (handleApproval o now st tts).state
               reaction rts ch).state tts
             = some { s with approved_at := some now, pending_learnings := ls,
                             status := Status.learnings_pending })
       ∧ (∀ resp, ∃ s3,
           sessionAt (handleLearningConfirmation (handleApproval o now st tts).state
               tts resp).state tts = some s3
           ∧ s3.status = Status.complete)) := by
  have hA := @handleApproval_of_iterating o now st tts s h hs
  constructor
  · intro h1
    have hnot : ¬1 < s.drafts.length := by omega
    have hstep : approvalStep o now s
        = { session := { s with approved_at := some now, status := Status.complete },
            calls := [], posts := ["✅ Final version locked!"], stored := [] } := by
      unfold approvalStep
      rw [if_neg hnot]
    rw [hA, hstep]
    constructor
    · simp [liftStep, sessionAt, alookup_setSession]
    · rfl
  · intro h2 hx hn
    have h1lt : 1 < s.drafts.length := h2
    have hstep : approvalStep o now s
        = { session := { s with approved_at := some now, pending_learnings := ls,
                                status := Status.learnings_pending },
            calls := [OracleCall.extract s.pillar s.drafts],
            posts := [learningsPrompt s.pillar ls], stored := [] } := by
      unfold approvalStep
      rw [if_pos h1lt, hx]
      dsimp only
      rw [if_pos hn]
    have hlook : sessionAt (handleApproval o now st tts).state tts
        = some { s with approved_at := some now, pending_learnings := ls,
                        status := Status.learnings_pending } := by
      rw [hA, hstep]
      simp [liftStep, sessionAt, alookup_setSession]
    refine ⟨hlook, by decide, ?_, ?_⟩
    · intro reaction rts ch
      rcases handleReaction_state_cases o now (handleApproval o now st tts).state
          reaction rts ch with hst | ⟨s0, v, tts2, hl, hit, _, hst⟩
      · rw [hst]; exact hlook
      · rw [hst]
        simp only [sessionAt, alookup_setSession]
        by_cases htt : tts = tts2
        · exfalso
          rw [← htt] at hl
          rw [hlook] at hl
          cases hl
          simp at hit
        · rw [if_neg htt]
          simpa [sessionAt] using hlook
    · intro resp
      have hconf := @handleLearning_of_pending (handleApproval o now st tts).state tts resp
        _ hlook rfl
      rw [hconf]
      refine ⟨(learningStep { s with
            approved_at := some now,
            pending_learnings := ls,
            status := Status.learnings_pending } tts resp).session,
        ?_, learningStep_status _ _ _⟩
      simp [liftStep, sessionAt, alookup_setSession]

theorem c2_approval_paths_witness :
    sessionAt Fixture.st2 "t1" = some Fixture.sIter2
    ∧ Fixture.sIter2.status = Status.iterating
    ∧ (2 ≤ Fixture.sIter2.drafts.length
       ∧ Fixture.learnOracles.extractLearnings Fixture.sIter2.pillar Fixture.sIter2.drafts
           = some ["prefers shorter sentences"]
       ∧ (["prefers shorter sentences"] : List String) ≠ [])
    ∧ ((Fixture.sIter2.drafts.length = 1 →
         sessionAt (handleApproval Fixture.learnOracles 0 Fixture.st2 "t1").state "t1"
           = some { Fixture.sIter2 with approved_at := some 0, status := Status.complete }
         ∧ (handleApproval Fixture.learnOracles 0 Fixture.st2 "t1").calls = [])
      ∧ (2 ≤ Fixture.sIter2.drafts.length →
         Fixture.learnOracles.extractLearnings Fixture.sIter2.pillar Fixture.sIter2.drafts
           = some ["prefers shorter sentences"] →
         (["prefers shorter sentences"] : List String) ≠ [] →
         sessionAt (handleApproval Fixture.learnOracles 0 Fixture.st2 "t1").state "t1"
           = some { Fixture.sIter2 with
                      approved_at := some 0,
                      pending_learnings := ["prefers shorter sentences"],
                      status := Status.learnings_pending }
         ∧ Status.learnings_pending ≠ Status.complete
         ∧ (∀ reaction rts ch,
             sessionAt (handleReaction Fixture.learnOracles 0
                 (handleApproval Fixture.learnOracles 0 Fixture.st2 "t1").state
                 reaction rts ch).state "t1"
               = some { Fixture.sIter2 with
                          approved_at := some 0,
                          pending_learnings := ["prefers shorter sentences"],
                          status := Status.learnings_pending })
         ∧ (∀ resp, ∃ s3,
             sessionAt (handleLearningConfirmation
                 (handleApproval Fixture.learnOracles 0 Fixture.st2 "t1").state
                 "t1" resp).state "t1" = some s3
             ∧ s3.status = Status.complete))) :=
  ⟨by decide, by decide, ⟨by decide, by decide, by decide⟩,
   c2_approval_paths Fixture.learnOracles 0 Fixture.st2 "t1" Fixture.sIter2
     ["prefers shorter sentences"] (by decide) (by decide)⟩

theorem alookup_eq_none_of_no_key {β : Type} (l : List (String × β)) (t : String)
    (h : ∀ b, (t, b) ∈ l → False) : alookup l t = none := by
  induction l with
  | nil => rfl
  | cons hd tl ih =>
    obtain ⟨a, c⟩ := hd
    by_cases hta : t = a
    · subst hta
      exact absurd (List.mem_cons_self _ _) (fun hm => h c hm)
    · simp only [alookup, if_neg hta]
      exact ih (fun b hb => h b (List.mem_cons_of_mem _ hb))

/-- C3: a threaded reply to a thread id with no session, no suggested-tweet
record and no legacy generated-post entry is a complete no-op (no session
mutation, no draft, no post, no stored record); the lazy sweep removes
exactly the sessions older than 24 hours; and once a thread's sessions are
purged, such a reply to it is again a complete no-op. -/
theorem c3_expired_unknown (o : Oracles) (now : Int) (st : BotState) (tts text : String)
    (store : List (String × Session)) (gps : List (String × GeneratedPost)) :
    (sessionAt st tts = none →
     (∀ tw, o.tweetLookup tts = some tw → truthy tw.suggested_content = false) →
     alookup st.generated_posts tts = none →
     handleThreadReply o now st tts text = noop st)
    ∧ (∀ t s, (t, s) ∈ cleanupOldSessions now store ↔
        ((t, s) ∈ store ∧ ¬(s.created_at < now - 24 * 3600)))
    ∧ ((∀ s : Session, (tts, s) ∈ store → s.created_at < now - 24 * 3600) →
       (∀ tw, o.tweetLookup tts = some tw → truthy tw.suggested_content = false) →
       alookup gps tts = none →
       handleThreadReply o now { draft_sessions := cleanupOldSessions now store,
                                 generated_posts := gps } tts text
         = noop { draft_sessions := cleanupOldSessions now store, generated_posts := gps }) := by
  have hmem : ∀ t s, (t, s) ∈ cleanupOldSessions now store ↔
      ((t, s) ∈ store ∧ ¬(s.created_at < now - 24 * 3600)) := by
    intro t s
    constructor
    · intro hm
      have := List.mem_filter.mp hm
      refine ⟨this.1, ?_⟩
      have h2 := this.2
      simp only [Bool.not_eq_true', decide_eq_false_iff_not] at h2
      exact h2
    · intro hm
      refine List.mem_filter.mpr ⟨hm.1, ?_⟩
      simp only [Bool.not_eq_true', decide_eq_false_iff_not]
      exact hm.2
  have hnoop : ∀ st2 : BotState, sessionAt st2 tts = none →
      (∀ tw, o.tweetLookup tts = some tw → truthy tw.suggested_content = false) →
      alookup st2.generated_posts tts = none →
      handleThreadReply o now st2 tts text = noop st2 := by
    intro st2 hsess htw hgp
    unfold handleThreadReply
    rw [hsess]
    simp only [Option.isSome_none, Bool.false_eq_true, if_false]
    have hcheck : checkSuggestedTweetThread o now st2 tts = (st2, false) := by
      unfold checkSuggestedTweetThread
      cases hl : o.tweetLookup tts with
      | none => rfl
      | some tw =>
        dsimp only
        rw [if_neg]
        rw [htw tw hl]
        simp
    rw [hcheck]
    simp only [Bool.false_eq_true, if_false]
    rw [hgp]
  refine ⟨hnoop st, hmem, ?_⟩
  intro hexp htw hgp
  apply hnoop
  · simp only [sessionAt]
    apply alookup_eq_none_of_no_key
    intro b hb
    have := (hmem tts b).mp hb
    exact this.2 (hexp b this.1)
  · exact htw
  · exact hgp

theorem c3_expired_unknown_witness :
    sessionAt Fixture.stEmpty "t9" = none
    ∧ (∀ s : Session, ("t1", s) ∈ Fixture.stComplete.draft_sessions →
        s.created_at < 200000 - 24 * 3600)
    ∧ ((sessionAt Fixture.stEmpty "t9" = none →
        (∀ tw, Fixture.noneOracles.tweetLookup "t9" = some tw →
          truthy tw.suggested_content = false) →
        alookup Fixture.stEmpty.generated_posts "t9" = none →
        handleThreadReply Fixture.noneOracles 200000 Fixture.stEmpty "t9" "hello"
          = noop Fixture.stEmpty)
      ∧ (∀ t s, (t, s) ∈ cleanupOldSessions 200000 Fixture.stComplete.draft_sessions ↔
          ((t, s) ∈ Fixture.stComplete.draft_sessions ∧ ¬(s.created_at < 200000 - 24 * 3600)))
      ∧ ((∀ s : Session, ("t9", s) ∈ Fixture.stComplete.draft_sessions →
            s.created_at < 200000 - 24 * 3600) →
         (∀ tw, Fixture.noneOracles.tweetLookup "t9" = some tw →
            truthy tw.suggested_content = false) →
         alookup ([] : List (String × GeneratedPost)) "t9" = none →
         handleThreadReply Fixture.noneOracles 200000
             { draft_sessions := cleanupOldSessions 200000 Fixture.stComplete.draft_sessions,
               generated_posts := [] } "t9" "hello"
           = noop { draft_sessions := cleanupOldSessions 200000 Fixture.stComplete.draft_sessions,
                    generated_posts := [] })) :=
  ⟨by decide,
   by
    intro s hs
    have hv : s = Fixture.sComplete := by
      simpa [Fixture.stComplete, Prod.ext_iff] using hs
    subst hv
    decide,
   c3_expired_unknown Fixture.noneOracles 200000 Fixture.stEmpty "t9" "hello"
     Fixture.stComplete.draft_sessions []⟩

theorem handleDraftReply_of_approvalSignal {o : Oracles} {now : Int} {st : BotState}
    {tts text : String} {s : Session}
    (h : sessionAt st tts = some s) (hs : s.status = Status.iterating)
    (happ : isApprovalSignal text = true) :
    handleDraftReply o now st tts text = handleApproval o now st tts := by
  unfold handleDraftReply
  rw [h]
  dsimp only
  rw [if_pos hs, if_pos happ]

theorem approvalStep_calls_cases (o : Oracles) (now : Int) (s : Session) :
    (approvalStep o now s).calls = []
      ∨ (approvalStep o now s).calls = [OracleCall.extract s.pillar s.drafts] := by
  unfold approvalStep
  split
  · split
    · split
      · exact Or.inr rfl
      · exact Or.inr rfl
    · exact Or.inr rfl
  · exact Or.inl rfl

/-- C4: when a thread reply in an iterating session passes the cheap local
approval check (`_is_approval_signal`), it is handled exactly as an approval,
the handler makes no intent-classifier call, and the outcome is the same for
every classifier oracle; in particular the exact inputs "✅" and "good" pass
the cheap check. -/
theorem c4_fast_path_approval (o : Oracles) (f : String → Session → Option String)
    (now : Int) (st : BotState) (tts text : String) (s : Session)
    (happ : isApprovalSignal text = true)
    (h : sessionAt st tts = some s) (hs : s.status = Status.iterating) :
    handleDraftReply o now st tts text = handleApproval o now st tts
    ∧ (∀ c ∈ (handleDraftReply o now st tts text).calls,
        ∀ t2, c ≠ OracleCall.classify t2)
    ∧ handleDraftReply { o with classifyIntent := f } now st tts text
        = handleDraftReply o now st tts text
    ∧ isApprovalSignal "✅" = true ∧ isApprovalSignal "good" = true := by
  have h1 := @handleDraftReply_of_approvalSignal o now st tts text s h hs happ
  have h2 := @handleDraftReply_of_approvalSignal { o with classifyIntent := f }
    now st tts text s h hs happ
  refine ⟨h1, ?_, ?_, by decide, by decide⟩
  · rw [h1, handleApproval_of_iterating h hs]
    intro c hc t2
    rcases approvalStep_calls_cases o now s with hcl | hcl
    · rw [liftStep] at hc
      rw [hcl] at hc
      simp at hc
    · rw [liftStep] at hc
      rw [hcl] at hc
      simp only [List.mem_singleton] at hc
      subst hc
      intro hcontra
      cases hcontra
  · rw [h1, h2]
    rfl

theorem c4_fast_path_approval_witness :
    isApprovalSignal "good" = true
    ∧ sessionAt Fixture.st1 "t1" = some Fixture.sIter
    ∧ Fixture.sIter.status = Status.iterating
    ∧ (handleDraftReply Fixture.noneOracles 0 Fixture.st1 "t1" "good"
         = handleApproval Fixture.noneOracles 0 Fixture.st1 "t1"
      ∧ (∀ c ∈ (handleDraftReply Fixture.noneOracles 0 Fixture.st1 "t1" "good").calls,
          ∀ t2, c ≠ OracleCall.classify t2)
      ∧ handleDraftReply
          { Fixture.noneOracles with classifyIntent := fun _ _ => some "revision" }
          0 Fixture.st1 "t1" "good"
          = handleDraftReply Fixture.noneOracles 0 Fixture.st1 "t1" "good"
      ∧ isApprovalSignal "✅" = true ∧ isApprovalSignal "good" = true) :=
  ⟨by decide, by decide, by decide,
   c4_fast_path_approval Fixture.noneOracles (fun _ _ => some "revision") 0 Fixture.st1
     "t1" "good" Fixture.sIter (by decide) (by decide) (by decide)⟩

theorem findReactionSession_none (store : List (String × Session)) (rts : String)
    (h : ∀ p ∈ store, ∀ last : Draft, p.2.drafts.getLast? = some last →
      (last.message_ts = some rts ∨ p.1 = rts) → p.2.status ≠ Status.iterating) :
    findReactionSession store rts = none := by
  induction store with
  | nil => rfl
  | cons hd tl ih =>
    obtain ⟨tts, s⟩ := hd
    have htl : findReactionSession tl rts = none :=
      ih (fun p hp => h p (List.mem_cons_of_mem _ hp))
    unfold findReactionSession
    cases hl : s.drafts.getLast? with
    | none => exact htl
    | some last =>
      dsimp only
      rw [if_neg, htl]
      intro hcond
      simp only [Bool.and_eq_true, decide_eq_true_eq, Bool.or_eq_true, beq_iff_eq] at hcond
      exact h (tts, s) (List.mem_cons_self _ _) last hl hcond.2 hcond.1

/-- C10: a ✅ reaction on a message of a session that is already `complete`
(and whose thread/messages match no iterating session) is a complete no-op —
same state, no oracle call, no post, no stored record; and the approval
handler itself is a no-op on any session whose status is `complete`. -/
theorem c10_reapprove_idempotent (o : Oracles) (now : Int) (st : BotState)
    (reaction rts ch t : String) (s : Session)
    (hcomp : ∀ p ∈ st.draft_sessions, ∀ last : Draft, p.2.drafts.getLast? = some last →
      (last.message_ts = some rts ∨ p.1 = rts) → p.2.status = Status.complete) :
    handleReaction o now st reaction rts ch = noop st
    ∧ (sessionAt st t = some s → s.status = Status.complete →
        handleApproval o now st t = noop st) := by
  constructor
  · unfold handleReaction
    split
    · rfl
    · split
      · rfl
      · rw [findReactionSession_none st.draft_sessions rts]
        intro p hp last hlast hmatch
        rw [hcomp p hp last hlast hmatch]
        decide
  · intro h hs
    refine handleApproval_not_iterating h ?_
    rw [hs]
    decide

theorem c10_reapprove_idempotent_witness :
    (∀ p ∈ Fixture.stComplete.draft_sessions, ∀ last : Draft,
      p.2.drafts.getLast? = some last →
      (last.message_ts = some "t1" ∨ p.1 = "t1") → p.2.status = Status.complete)
    ∧ (handleReaction Fixture.noneOracles 0 Fixture.stComplete "white_check_mark" "t1" "ch"
         = noop Fixture.stComplete
      ∧ (sessionAt Fixture.stComplete "t1" = some Fixture.sComplete →
          Fixture.sComplete.status = Status.complete →
          handleApproval Fixture.noneOracles 0 Fixture.stComplete "t1"
            = noop Fixture.stComplete)) :=
  ⟨by decide,
   c10_reapprove_idempotent Fixture.noneOracles 0 Fixture.stComplete
     "white_check_mark" "t1" "ch" "t1" Fixture.sComplete (by decide)⟩

namespace Fixture

/-- A suggested tweet whose slack message ts collides with an existing
session's thread id. -/
def tweet1 : SuggestedTweet :=
  { id := "9001", content := "CBN announcement", account_handle := "cenbank",
    relevance_type := some "reply_opportunity",
    suggested_content := some "Our take on the CBN announcement" }

/-- Oracles whose tweet lookup knows `tweet1` under the ts "t1". -/
def tweetOracles : Oracles :=
  { noneOracles with tweetLookup := fun t => if t = "t1" then some tweet1 else none }

end Fixture

/-- C6 counterexample: creating a session for a thread id that is already in
the store raises nothing — the call reports success (`true`) and the
pre-existing session for that thread id is replaced, not left unchanged. The
repository contains no `DuplicateSessionError` and no duplicate check at
either creation site. -/
theorem c6_counterexample :
    (checkSuggestedTweetThread Fixture.tweetOracles 0 Fixture.st1 "t1").2 = true
    ∧ sessionAt (checkSuggestedTweetThread Fixture.tweetOracles 0 Fixture.st1 "t1").1 "t1"
        ≠ some Fixture.sIter := by
  constructor
  · decide
  · decide

/-- C6 amended: creating a draft session for a thread id already present in
the store silently overwrites the existing session with the freshly created
one and reports success; no error of any kind is raised or surfaced. -/
theorem c6_amended_overwrite (o : Oracles) (now : Int) (st : BotState) (tts : String)
    (tw : SuggestedTweet) (s0 : Session)
    (hlk : o.tweetLookup tts = some tw) (ht : truthy tw.suggested_content = true)
    (h : sessionAt st tts = some s0) :
    (checkSuggestedTweetThread o now st tts).2 = true
    ∧ sessionAt (checkSuggestedTweetThread o now st tts).1 tts
        = some (mkSuggestedSession now tts tw) := by
  unfold checkSuggestedTweetThread
  rw [hlk]
  dsimp only
  rw [if_pos ht]
  refine ⟨rfl, ?_⟩
  simp [sessionAt, alookup_setSession]

theorem c6_amended_overwrite_witness :
    Fixture.tweetOracles.tweetLookup "t1" = some Fixture.tweet1
    ∧ truthy Fixture.tweet1.suggested_content = true
    ∧ sessionAt Fixture.st1 "t1" = some Fixture.sIter
    ∧ ((checkSuggestedTweetThread Fixture.tweetOracles 0 Fixture.st1 "t1").2 = true
      ∧ sessionAt (checkSuggestedTweetThread Fixture.tweetOracles 0 Fixture.st1 "t1").1 "t1"
          = some (mkSuggestedSession 0 "t1" Fixture.tweet1)) :=
  ⟨by decide, by decide, by decide,
   c6_amended_overwrite Fixture.tweetOracles 0 Fixture.st1 "t1" Fixture.tweet1
     Fixture.sIter (by decide) (by decide) (by decide)⟩

/-- C9 counterexample: in a `learnings_pending` session, the free-text reply
"drop the shorter sentences one" (no leading "no", no word "except") is NOT
treated as an implicit exception list: the handler stores every pending
learning — including the one the reply names — whereas exception treatment
would have stored none of them. -/
theorem c9_counterexample :
    storedLearnings (handleLearningConfirmation Fixture.stPending "t1"
        "drop the shorter sentences one")
      = [["prefers shorter sentences"]]
    ∧ exceptFilter "drop the shorter sentences one" ["prefers shorter sentences"] = [] := by
  constructor
  · decide
  · decide

/-- C9 amended: when a `learnings_pending` session receives a thread reply,
the session always becomes `complete`; a reply whose lowercased trim starts
with "no" stores nothing; any other reply stores `confirmedLearnings`
— all pending learnings, except that when the reply contains the word
"except" the keyword filter `exceptFilter` is applied first — and stores no
record at all when that list is empty. Free text without "except" is treated
as a blanket affirmative, not as an implicit exception list. -/
theorem c9_amended_confirmation (st : BotState) (tts resp : String) (s : Session)
    (h : sessionAt st tts = some s) (hs : s.status = Status.learnings_pending) :
    (∃ s3, sessionAt (handleLearningConfirmation st tts resp).state tts = some s3
        ∧ s3.status = Status.complete)
    ∧ ((pyStrip (pyLower resp) == "no"
          || pyStartsWith (pyStrip (pyLower resp)) "no") = true →
        (handleLearningConfirmation st tts resp).stored = [])
    ∧ ((pyStrip (pyLower resp) == "no"
          || pyStartsWith (pyStrip (pyLower resp)) "no") = false →
        storedLearnings (handleLearningConfirmation st tts resp)
          = if confirmedLearnings (pyStrip (pyLower resp)) s.pending_learnings ≠ [] then
              [confirmedLearnings (pyStrip (pyLower resp)) s.pending_learnings]
            else []) := by
  have hconf := @handleLearning_of_pending st tts resp s h hs
  rw [hconf]
  refine ⟨⟨(learningStep s tts resp).session, ?_, learningStep_status s tts resp⟩, ?_, ?_⟩
  · simp [liftStep, sessionAt, alookup_setSession]
  · intro hno
    unfold liftStep learningStep
    rw [if_pos hno]
  · intro hno
    unfold liftStep learningStep storedLearnings
    rw [if_neg (by rw [hno]; exact Bool.false_ne_true)]
    by_cases hne : confirmedLearnings (pyStrip (pyLower resp)) s.pending_learnings ≠ []
    · rw [if_pos hne, if_pos hne]
      rfl
    · rw [if_neg hne, if_neg hne]
      rfl

theorem c9_amended_confirmation_witness :
    sessionAt Fixture.stPending "t1" = some Fixture.sPending
    ∧ Fixture.sPending.status = Status.learnings_pending
    ∧ ((∃ s3, sessionAt (handleLearningConfirmation Fixture.stPending "t1" "yes").state "t1"
          = some s3 ∧ s3.status = Status.complete)
      ∧ ((pyStrip (pyLower "yes") == "no"
            || pyStartsWith (pyStrip (pyLower "yes")) "no") = true →
          (handleLearningConfirmation Fixture.stPending "t1" "yes").stored = [])
      ∧ ((pyStrip (pyLower "yes") == "no"
            || pyStartsWith (pyStrip (pyLower "yes")) "no") = false →
          storedLearnings (handleLearningConfirmation Fixture.stPending "t1" "yes")
            = if confirmedLearnings (pyStrip (pyLower "yes"))
                  Fixture.sPending.pending_learnings ≠ [] then
                [confirmedLearnings (pyStrip (pyLower "yes"))
                  Fixture.sPending.pending_learnings]
              else [])) :=
  ⟨by decide, by decide,
   c9_amended_confirmation Fixture.stPending "t1" "yes" Fixture.sPending
     (by decide) (by decide)⟩

theorem replay_pairs_of_truthy (l : List Draft)
    (hreq : ∀ d ∈ l, truthy d.revision_request = true) :
    l.flatMap (fun d =>
      (if truthy d.revision_request then
        [{ role := "user", content := d.revision_request.getD "" }]
       else ([] : List Msg)) ++ [{ role := "assistant", content := d.content }])
      = l.flatMap (fun d =>
        [{ role := "user", content := d.revision_request.getD "" },
         { role := "assistant", content := d.content }]) := by
  induction l with
  | nil => rfl
  | cons hd tl ih =>
    simp only [List.flatMap_cons]
    rw [if_pos (hreq hd (List.mem_cons_self _ _)),
      ih (fun d hd2 => hreq d (List.mem_cons_of_mem _ hd2))]
    rfl

/-- C8: for a session whose subsequent drafts all carry a (truthy) revision
instruction — which every draft appended by the revision handler does — the
message list built for a regular revision equals the spec's replay shape:
source-reference context if present, then the original draft, then each
subsequent (instruction, draft) pair in order, then the new instruction last;
and the non-voice revision path sends the oracle exactly this list. -/
theorem c8_revision_replay (o : Oracles) (s : Session) (req : String)
    (hdv : o.detectVoice req = none)
    (hne : s.drafts ≠ [])
    (hreq : ∀ d ∈ s.drafts.drop 1, truthy d.revision_request = true) :
    buildRevisionMessages s req = revisionReplaySpec s req
    ∧ (revisionStep o s req).calls
        = [OracleCall.detect req, OracleCall.revise s.pillar (buildRevisionMessages s req)] := by
  constructor
  · unfold buildRevisionMessages revisionReplaySpec
    rw [replay_pairs_of_truthy (s.drafts.drop 1) hreq]
  · unfold revisionStep
    rw [hdv]
    dsimp only
    cases o.reviseContent s.pillar (buildRevisionMessages s req) with
    | none => rfl
    | some revised => rfl

theorem c8_revision_replay_witness :
    Fixture.noneOracles.detectVoice "make it shorter" = none
    ∧ Fixture.sIter2.drafts ≠ []
    ∧ (∀ d ∈ Fixture.sIter2.drafts.drop 1, truthy d.revision_request = true)
    ∧ (buildRevisionMessages Fixture.sIter2 "make it shorter"
         = revisionReplaySpec Fixture.sIter2 "make it shorter"
      ∧ (revisionStep Fixture.noneOracles Fixture.sIter2 "make it shorter").calls
          = [OracleCall.detect "make it shorter",
             OracleCall.revise Fixture.sIter2.pillar
               (buildRevisionMessages Fixture.sIter2 "make it shorter")]) :=
  ⟨by decide, by decide, by decide,
   c8_revision_replay Fixture.noneOracles Fixture.sIter2 "make it shorter"
     (by decide) (by decide) (by decide)⟩

namespace Fixture

/-- A voice-reference account with one stored sample. -/
def kobeAccount : VoiceAccount :=
  { twitter_handle := "kobeissi", voice_pillars := ["market_commentary"],
    samples := [{ content := "sample one", likes := 3, is_active := true }] }

/-- Oracles for the voice path: the detector extracts the hint "kobeissi",
the account above is a known voice reference, and the voice revision
succeeds. -/
def voiceOracles : Oracles :=
  { noneOracles with
      detectVoice := fun _ => some "kobeissi",
      voiceAccounts := [kobeAccount],
      reviseWithVoice := fun _ _ _ _ => some "Draft C",
      sayTs := some "t3" }

/-- A session with an original draft "Draft A" and a revision "Draft B". -/
def sVoice : Session := sIter2

end Fixture

theorem findVoiceReference_samples_le (o : Oracles) (hint : String)
    (acc : VoiceAccount) (samples : List VoiceSample)
    (h : (findVoiceReference o hint).1 = some (acc, samples)) :
    samples.length ≤ 20 := by
  have htake : ∀ rows : List VoiceSample, (getSamplesForAccount rows 20).length ≤ 20 := by
    intro rows
    simp only [getSamplesForAccount, List.length_take]
    exact min_le_left _ _
  unfold findVoiceReference at h
  split at h
  · cases h
  · split at h
    · cases h; exact htake _
    · split at h
      · cases h; exact htake _
      · split at h
        · cases h; exact htake _
        · split at h
          · cases h
          · split at h
            · cases h; exact htake _
            · cases h

theorem findVoiceReference_calls_cases (o : Oracles) (hint : String) :
    (findVoiceReference o hint).2 = []
      ∨ (findVoiceReference o hint).2 = [OracleCall.bestGuess hint] := by
  unfold findVoiceReference
  split
  · exact Or.inl rfl
  · split
    · exact Or.inl rfl
    · split
      · exact Or.inl rfl
      · split
        · exact Or.inl rfl
        · split
          · exact Or.inr rfl
          · split
            · exact Or.inr rfl
            · exact Or.inr rfl

/-- C7 counterexample: on a session whose drafts are "Draft A" (original) and
"Draft B" (one revision), a voice-matching revision request sends the oracle
nothing that mentions the original draft "Draft A" or the prior instruction
"make it shorter" — the voice call carries only the latest draft "Draft B",
the sample texts and the handle — whereas the regular-revision replay for the
same session does contain both. So a voice revision does not send "the same
full linear conversation replay as a regular revision". -/
theorem c7_counterexample :
    (revisionStep Fixture.voiceOracles Fixture.sVoice "make it sound like kobeissi").calls
      = [OracleCall.detect "make it sound like kobeissi",
         OracleCall.reviseVoice "market_commentary" "Draft B" ["sample one"] "kobeissi"]
    ∧ ((revisionStep Fixture.voiceOracles Fixture.sVoice
          "make it sound like kobeissi").calls.any (callMentions "Draft A")) = false
    ∧ ((revisionStep Fixture.voiceOracles Fixture.sVoice
          "make it sound like kobeissi").calls.any (callMentions "make it shorter")) = false
    ∧ ((buildRevisionMessages Fixture.sVoice "make it sound like kobeissi").any
          (fun m => pyIn "Draft A" m.content)) = true
    ∧ ((buildRevisionMessages Fixture.sVoice "make it sound like kobeissi").any
          (fun m => pyIn "make it shorter" m.content)) = true := by
  refine ⟨by decide, by decide, by decide, by decide, by decide⟩

/-- C7 amended: a voice-matching revision supplies the oracle only the
session's latest draft content, the sample texts of the resolved voice
reference (at most 20, by the sampler's query limit), and the voice handle —
possibly after one best-guess resolution call — and never sends the
conversation-replay message list of a regular revision. -/
theorem c7_amended_voice_payload (o : Oracles) (s : Session) (req hint : String)
    (acc : VoiceAccount) (samples : List VoiceSample) (last : Draft)
    (hd : o.detectVoice req = some hint)
    (hf : (findVoiceReference o hint).1 = some (acc, samples))
    (hs : samples.map (fun x => x.content) ≠ [])
    (hl : s.drafts.getLast? = some last) :
    (revisionStep o s req).calls
      = [OracleCall.detect req] ++ (findVoiceReference o hint).2
        ++ [OracleCall.reviseVoice s.pillar last.content
             (samples.map (fun x => x.content)) acc.twitter_handle]
    ∧ samples.length ≤ 20
    ∧ (∀ p msgs, OracleCall.revise p msgs ∉ (revisionStep o s req).calls) := by
  have hcalls : (revisionStep o s req).calls
      = [OracleCall.detect req] ++ (findVoiceReference o hint).2
        ++ [OracleCall.reviseVoice s.pillar last.content
             (samples.map (fun x => x.content)) acc.twitter_handle] := by
    unfold revisionStep
    rw [hd]
    dsimp only
    rw [hf]
    dsimp only
    rw [if_pos hs, hl]
    dsimp only
    cases o.reviseWithVoice s.pillar last.content (samples.map (fun x => x.content))
        acc.twitter_handle with
    | none => rfl
    | some revised => rfl
  refine ⟨hcalls, findVoiceReference_samples_le o hint acc samples hf, ?_⟩
  intro p msgs hmem
  rw [hcalls] at hmem
  rcases findVoiceReference_calls_cases o hint with hbg | hbg <;>
    rw [hbg] at hmem <;> simp at hmem

theorem c7_amended_voice_payload_witness :
    Fixture.voiceOracles.detectVoice "make it sound like kobeissi" = some "kobeissi"
    ∧ (findVoiceReference Fixture.voiceOracles "kobeissi").1
        = some (Fixture.kobeAccount, Fixture.kobeAccount.samples)
    ∧ Fixture.kobeAccount.samples.map (fun x => x.content) ≠ []
    ∧ Fixture.sVoice.drafts.getLast? = some Fixture.d1
    ∧ ((revisionStep Fixture.voiceOracles Fixture.sVoice "make it sound like kobeissi").calls
        = [OracleCall.detect "make it sound like kobeissi"]
          ++ (findVoiceReference Fixture.voiceOracles "kobeissi").2
          ++ [OracleCall.reviseVoice Fixture.sVoice.pillar Fixture.d1.content
               (Fixture.kobeAccount.samples.map (fun x => x.content))
               Fixture.kobeAccount.twitter_handle]
      ∧ Fixture.kobeAccount.samples.length ≤ 20
      ∧ (∀ p msgs, OracleCall.revise p msgs
          ∉ (revisionStep Fixture.voiceOracles Fixture.sVoice
              "make it sound like kobeissi").calls)) :=
  ⟨by decide, by decide, by decide, by decide,
   c7_amended_voice_payload Fixture.voiceOracles Fixture.sVoice
     "make it sound like kobeissi" "kobeissi" Fixture.kobeAccount
     Fixture.kobeAccount.samples Fixture.d1 (by decide) (by decide) (by decide) (by decide)⟩

end MarksAgent


